import Mathlib

/-!
Shallow embedding of the engagement-consistency engine of the
`backend-chatpad` storytelling API (Mongoose models `Like`, `Follow`,
`Story`, `Comment`, `Rating`, `Notification` and the like controller).

Collections are modelled as lists of rows in insertion order, a Mongo
`findOne` as `List.find?`, `exists` as `List.any`, a document `remove`
as removal of the first matching row, and a `save` of a new document as
an append.  Object ids are modelled as natural numbers.  Presentation
fields that no claim touches (notification title, message, actionUrl)
are not modelled.
-/

namespace ChatPad

/-- Object ids (Mongo ObjectId values). -/
abbrev Id := Nat

/-- The `type` discriminant of a `Like` row: `'story' | 'chapter' | 'comment'`. -/
inductive TargetType where
  | story
  | chapter
  | comment
deriving DecidableEq, Repr

/-- A `Like` document: `user` plus three nullable target references and the
`type` discriminant, as in `likeSchema` (src/models/Like.js). -/
structure LikeRow where
  user : Id
  story : Option Id := none
  chapter : Option Id := none
  comment : Option Id := none
  type : TargetType
deriving DecidableEq, Repr

/-- The query `{ user: userId, [targetType]: targetId }` built by
`toggleLike` and `isLikedBy`. -/
def likeQueryMatch (userId targetId : Id) (tt : TargetType) (r : LikeRow) : Bool :=
  r.user == userId &&
    (match tt with
     | .story => r.story == some targetId
     | .chapter => r.chapter == some targetId
     | .comment => r.comment == some targetId)

/-- The document `new Like({ user, [targetType]: targetId, type: targetType })`
built in the create branch of `toggleLike`. -/
def mkLike (userId targetId : Id) (tt : TargetType) : LikeRow :=
  match tt with
  | .story => { user := userId, story := some targetId, type := .story }
  | .chapter => { user := userId, chapter := some targetId, type := .chapter }
  | .comment => { user := userId, comment := some targetId, type := .comment }

/-- `document.remove()`: delete the first row matching the predicate. -/
def removeFirst (p : α → Bool) : List α → List α
  | [] => []
  | x :: xs => if p x then xs else x :: removeFirst p xs

/-- The value returned by `Like.toggleLike`. -/
structure ToggleResult where
  liked : Bool
  message : String
deriving DecidableEq, Repr

/-- `likeSchema.statics.toggleLike` (src/models/Like.js, lines 82-102):
find the existing like; if present remove it and report `liked: false`,
otherwise save a new like row and report `liked: true`.  Returns the new
collection state together with the result object. -/
def toggleLike (likes : List LikeRow) (userId targetId : Id) (tt : TargetType) :
    List LikeRow × ToggleResult :=
  match likes.find? (likeQueryMatch userId targetId tt) with
  | some _ =>
      (removeFirst (likeQueryMatch userId targetId tt) likes,
       { liked := false, message := "Unliked successfully" })
  | none =>
      (likes ++ [mkLike userId targetId tt],
       { liked := true, message := "Liked successfully" })

/-- `likeSchema.statics.isLikedBy` (src/models/Like.js, lines 105-109):
`this.exists({ user: userId, [targetType]: targetId })`. -/
def isLikedBy (likes : List LikeRow) (userId targetId : Id) (tt : TargetType) : Bool :=
  likes.any (likeQueryMatch userId targetId tt)

/-! ### Helper lemmas about the list-level persistence primitives -/

theorem removeFirst_of_all_neg {p : α → Bool} {l : List α}
    (h : ∀ x ∈ l, p x = false) : removeFirst p l = l := by
  induction l with
  | nil => rfl
  | cons x xs ih =>
      have hx : p x = false := h x (List.mem_cons_self x xs)
      simp only [removeFirst]
      rw [if_neg (by simp [hx])]
      exact congrArg (x :: ·) (ih fun y hy => h y (List.mem_cons_of_mem x hy))

theorem removeFirst_append_of_all_neg {p : α → Bool} {l₁ l₂ : List α}
    (h : ∀ x ∈ l₁, p x = false) :
    removeFirst p (l₁ ++ l₂) = l₁ ++ removeFirst p l₂ := by
  induction l₁ with
  | nil => rfl
  | cons x xs ih =>
      have hx : p x = false := h x (List.mem_cons_self x xs)
      simp only [List.cons_append, removeFirst]
      rw [if_neg (by simp [hx])]
      exact congrArg (x :: ·) (ih fun y hy => h y (List.mem_cons_of_mem x hy))

theorem mem_of_mem_removeFirst {p : α → Bool} {l : List α} {x : α}
    (h : x ∈ removeFirst p l) : x ∈ l := by
  induction l with
  | nil => simp [removeFirst] at h
  | cons y ys ih =>
      by_cases hp : p y
      · simp only [removeFirst, if_pos hp] at h
        exact List.mem_cons_of_mem y h
      · simp only [removeFirst, if_neg hp, List.mem_cons] at h
        rcases h with h | h
        · exact h ▸ List.mem_cons_self y ys
        · exact List.mem_cons_of_mem y (ih h)

theorem find?_eq_none_of_any_false {p : α → Bool} {l : List α}
    (h : l.any p = false) : l.find? p = none := by
  induction l with
  | nil => rfl
  | cons x xs ih =>
      simp only [List.any_cons, Bool.or_eq_false_iff] at h
      simp only [List.find?, h.1, ih h.2]

theorem find?_append_right_of_any_false {p : α → Bool} {l₁ l₂ : List α}
    (h : l₁.any p = false) : (l₁ ++ l₂).find? p = l₂.find? p := by
  induction l₁ with
  | nil => rfl
  | cons x xs ih =>
      simp only [List.any_cons, Bool.or_eq_false_iff] at h
      simp only [List.cons_append, List.find?, h.1]
      exact ih h.2

theorem find?_eq_some_of_any_true {p : α → Bool} {l : List α}
    (h : l.any p = true) : ∃ x, l.find? p = some x := by
  induction l with
  | nil => simp at h
  | cons y ys ih =>
      cases hy : p y with
      | true => exact ⟨y, by simp [List.find?, hy]⟩
      | false =>
          simp only [List.any_cons, hy, Bool.false_or] at h
          obtain ⟨x, hx⟩ := ih h
          exact ⟨x, by simp [List.find?, hy, hx]⟩

theorem all_neg_of_any_false {p : α → Bool} {l : List α}
    (h : l.any p = false) : ∀ x ∈ l, p x = false := by
  intro x hx
  by_contra hcon
  have : l.any p = true := List.any_eq_true.mpr ⟨x, hx, by simpa using hcon⟩
  simp [this] at h

/-- The freshly created like row matches the query it was created from. -/
theorem likeQueryMatch_mkLike (u t : Id) (tt : TargetType) :
    likeQueryMatch u t tt (mkLike u t tt) = true := by
  cases tt <;> simp [likeQueryMatch, mkLike]

/-- C1.  Starting from any state with no like row for `(U, T)`, the first
`toggleLike` reports `liked = true`, the second reports `liked = false`,
and `isLikedBy` reports `true` after the first call and `false` after the
second. -/
theorem toggleLike_twice (likes : List LikeRow) (u t : Id) (tt : TargetType)
    (h : isLikedBy likes u t tt = false) :
    ((toggleLike likes u t tt).2.liked = true ∧
      isLikedBy (toggleLike likes u t tt).1 u t tt = true) ∧
    ((toggleLike (toggleLike likes u t tt).1 u t tt).2.liked = false ∧
      isLikedBy (toggleLike (toggleLike likes u t tt).1 u t tt).1 u t tt = false) := by
  have hnone : likes.find? (likeQueryMatch u t tt) = none :=
    find?_eq_none_of_any_false h
  have hall : ∀ x ∈ likes, likeQueryMatch u t tt x = false :=
    all_neg_of_any_false h
  have h1 : toggleLike likes u t tt =
      (likes ++ [mkLike u t tt], { liked := true, message := "Liked successfully" }) := by
    simp [toggleLike, hnone]
  have hfind2 : (likes ++ [mkLike u t tt]).find? (likeQueryMatch u t tt) =
      some (mkLike u t tt) := by
    rw [find?_append_right_of_any_false h]
    simp [List.find?, likeQueryMatch_mkLike]
  have hliked1 : isLikedBy (likes ++ [mkLike u t tt]) u t tt = true := by
    simp [isLikedBy, List.any_append, likeQueryMatch_mkLike]
  have hremove : removeFirst (likeQueryMatch u t tt) (likes ++ [mkLike u t tt]) = likes := by
    rw [removeFirst_append_of_all_neg hall]
    simp [removeFirst, likeQueryMatch_mkLike]
  have h2 : toggleLike (likes ++ [mkLike u t tt]) u t tt =
      (likes, { liked := false, message := "Unliked successfully" }) := by
    simp [toggleLike, hfind2, hremove]
  refine ⟨⟨?_, ?_⟩, ⟨?_, ?_⟩⟩
  · rw [h1]
  · rw [h1]; exact hliked1
  · rw [h1]; simpa using congrArg (fun p => p.2.liked) h2
  · rw [h1]
    have : (toggleLike (likes ++ [mkLike u t tt]) u t tt).1 = likes := by rw [h2]
    rw [this]
    exact h

/-- C1 witness: the double toggle property evaluated for user `0` liking
story `1` starting from the empty collection. -/
theorem toggleLike_twice_witness :
    isLikedBy [] 0 1 TargetType.story = false ∧
    (((toggleLike [] 0 1 TargetType.story).2.liked = true ∧
        isLikedBy (toggleLike [] 0 1 TargetType.story).1 0 1 TargetType.story = true) ∧
      ((toggleLike (toggleLike [] 0 1 TargetType.story).1 0 1 TargetType.story).2.liked = false ∧
        isLikedBy (toggleLike (toggleLike [] 0 1 TargetType.story).1 0 1
          TargetType.story).1 0 1 TargetType.story = false)) :=
  ⟨rfl, toggleLike_twice [] 0 1 TargetType.story rfl⟩

/-! ### Generic congruence helpers -/

theorem any_congr_of_eq {p q : α → Bool} {l : List α}
    (h : ∀ x ∈ l, p x = q x) : l.any p = l.any q := by
  induction l with
  | nil => rfl
  | cons x xs ih =>
      simp only [List.any_cons, h x (List.mem_cons_self x xs)]
      rw [ih fun y hy => h y (List.mem_cons_of_mem x hy)]

theorem filter_congr_of_eq {p q : α → Bool} {l : List α}
    (h : ∀ x ∈ l, p x = q x) : l.filter p = l.filter q := by
  induction l with
  | nil => rfl
  | cons x xs ih =>
      rw [List.filter_cons, List.filter_cons, h x (List.mem_cons_self x xs),
        ih fun y hy => h y (List.mem_cons_of_mem x hy)]

/-! ## Follow model (src/models/Follow.js)

A `Follow` document has `follower`, `following`, an `isActive` flag that
defaults to `true`, and timestamps (`createdAt` is modelled, as several
queries sort on it).  The `followers`/`following` ObjectId arrays kept on
`User` documents by `$addToSet`/`$pull` are not modelled; the numeric
`followersCount`/`followingCount` counters are. -/

structure FollowRow where
  follower : Id
  following : Id
  isActive : Bool := true
  createdAt : Nat := 0
deriving DecidableEq, Repr

/-- The counter fields of a `User` document touched by the follow hooks. -/
structure UserCtr where
  id : Id
  followersCount : Int
  followingCount : Int
deriving DecidableEq, Repr

/-- `followSchema.post('save')` (lines 34-50): when the saved row is active,
`$inc` the follower's `followingCount` and the followed user's
`followersCount` by `+1`. -/
def incFollowCounts (users : List UserCtr) (followerId followingId : Id) : List UserCtr :=
  users.map fun u =>
    let u1 := if u.id == followerId then { u with followingCount := u.followingCount + 1 } else u
    if u1.id == followingId then { u1 with followersCount := u1.followersCount + 1 } else u1

/-- `followSchema.post('remove')` (lines 53-67): `$inc` the follower's
`followingCount` and the followed user's `followersCount` by `-1`
(unconditionally, no clamp). -/
def decFollowCounts (users : List UserCtr) (followerId followingId : Id) : List UserCtr :=
  users.map fun u =>
    let u1 := if u.id == followerId then { u with followingCount := u.followingCount - 1 } else u
    if u1.id == followingId then { u1 with followersCount := u1.followersCount - 1 } else u1

/-- The query `{ follower: followerId, following: followingId }`. -/
def followKeyMatch (followerId followingId : Id) (f : FollowRow) : Bool :=
  f.follower == followerId && f.following == followingId

/-- `followSchema.statics.toggleFollow` (lines 70-93) together with the
counter hooks its `save`/`remove` calls fire.  The self-follow guard
(`followerId === followingId`) throws before any read or write; on
unfollow the found row is removed and the post-remove hook decrements
counters; on follow a new row (with `isActive` defaulted to `true`) is
saved and the post-save hook increments counters. -/
def toggleFollow (follows : List FollowRow) (users : List UserCtr)
    (followerId followingId : Id) (now : Nat) :
    Except String Bool × List FollowRow × List UserCtr :=
  if followerId == followingId then
    (.error "User cannot follow themselves", follows, users)
  else
    match follows.find? (followKeyMatch followerId followingId) with
    | some _ =>
        (.ok false, removeFirst (followKeyMatch followerId followingId) follows,
         decFollowCounts users followerId followingId)
    | none =>
        (.ok true,
         follows ++ [{ follower := followerId, following := followingId,
                       isActive := true, createdAt := now }],
         incFollowCounts users followerId followingId)

/-- `followSchema.statics.isFollowing` (lines 96-102): an existence check
filtered on `isActive: true`. -/
def isFollowing (follows : List FollowRow) (followerId followingId : Id) : Bool :=
  follows.any fun f => f.follower == followerId && f.following == followingId && f.isActive

/-- The same existence check without the `isActive` filter, for comparing
the filtered queries with their unfiltered counterparts. -/
def isFollowingUnfiltered (follows : List FollowRow) (followerId followingId : Id) : Bool :=
  follows.any fun f => f.follower == followerId && f.following == followingId

/-- Insert a row into a list sorted by `createdAt` descending. -/
def insertDescFollow (c : FollowRow) : List FollowRow → List FollowRow
  | [] => [c]
  | x :: xs => if x.createdAt < c.createdAt then c :: x :: xs else x :: insertDescFollow c xs

/-- `.sort({ createdAt: -1 })` on a follow query result. -/
def sortDescFollow : List FollowRow → List FollowRow
  | [] => []
  | x :: xs => insertDescFollow x (sortDescFollow xs)

/-- `followSchema.statics.getFollowers` (lines 105-111): rows with
`following = userId` and `isActive: true`, newest first, paginated
(Mongo applies `skip` before `limit` regardless of chaining order). -/
def getFollowers (follows : List FollowRow) (userId : Id) (limit skip : Nat) : List FollowRow :=
  (((sortDescFollow (follows.filter fun f => f.following == userId && f.isActive)).drop
    skip).take limit)

/-- `getFollowers` without the `isActive` filter. -/
def getFollowersUnfiltered (follows : List FollowRow) (userId : Id)
    (limit skip : Nat) : List FollowRow :=
  (((sortDescFollow (follows.filter fun f => f.following == userId)).drop skip).take limit)

/-- `followSchema.statics.getFollowing` (lines 114-120). -/
def getFollowing (follows : List FollowRow) (userId : Id) (limit skip : Nat) : List FollowRow :=
  (((sortDescFollow (follows.filter fun f => f.follower == userId && f.isActive)).drop
    skip).take limit)

/-- `getFollowing` without the `isActive` filter. -/
def getFollowingUnfiltered (follows : List FollowRow) (userId : Id)
    (limit skip : Nat) : List FollowRow :=
  (((sortDescFollow (follows.filter fun f => f.follower == userId)).drop skip).take limit)

/-- C8.  `toggleFollow(U, U)` rejects with the self-reference error before
any write: the follow collection and all user counters are returned
unchanged. -/
theorem toggleFollow_self_rejected (follows : List FollowRow) (users : List UserCtr)
    (u : Id) (now : Nat) :
    toggleFollow follows users u u now =
      (.error "User cannot follow themselves", follows, users) := by
  simp [toggleFollow]

/-- Follow-collection states reachable through the engine: the empty
collection, closed under `toggleFollow` (the only operation of the engine
that writes follow rows; unfollow physically deletes). -/
inductive FollowReachable : List FollowRow → Prop where
  | init : FollowReachable []
  | toggle (users : List UserCtr) (a b : Id) (now : Nat) {s : List FollowRow} :
      FollowReachable s → FollowReachable (toggleFollow s users a b now).2.1

/-- One `toggleFollow` step either leaves the follow collection unchanged,
removes the first matching row, or appends a fresh row with
`isActive = true`. -/
theorem toggleFollow_follows_cases (s : List FollowRow) (users : List UserCtr)
    (a b : Id) (now : Nat) :
    (toggleFollow s users a b now).2.1 = s ∨
    (toggleFollow s users a b now).2.1 = removeFirst (followKeyMatch a b) s ∨
    (toggleFollow s users a b now).2.1 =
      s ++ [{ follower := a, following := b, isActive := true, createdAt := now }] := by
  unfold toggleFollow
  by_cases hab : (a == b) = true
  · rw [if_pos hab]
    exact Or.inl rfl
  · rw [if_neg hab]
    cases s.find? (followKeyMatch a b) <;> simp

/-- Every follow row in a reachable state is active: rows are created with
`isActive = true` and no engine operation ever writes `isActive = false`. -/
theorem followReachable_all_active {s : List FollowRow} (h : FollowReachable s) :
    ∀ f ∈ s, f.isActive = true := by
  induction h with
  | init => intro f hf; simp at hf
  | toggle users a b now _ ih =>
      intro f hf
      rcases toggleFollow_follows_cases _ users a b now with hc | hc | hc
      · rw [hc] at hf
        exact ih f hf
      · rw [hc] at hf
        exact ih f (mem_of_mem_removeFirst hf)
      · rw [hc] at hf
        rcases List.mem_append.mp hf with hf | hf
        · exact ih f hf
        · simp at hf
          rw [hf]

/-- C10.  In every reachable state all follow rows have `isActive = true`,
so the `isActive: true` filters of `isFollowing`, `getFollowers` and
`getFollowing` are no-ops: each query returns exactly what its unfiltered
counterpart returns. -/
theorem follow_isActive_invariant (s : List FollowRow) (h : FollowReachable s) :
    (∀ f ∈ s, f.isActive = true) ∧
    (∀ a b, isFollowing s a b = isFollowingUnfiltered s a b) ∧
    (∀ u limit skip, getFollowers s u limit skip = getFollowersUnfiltered s u limit skip) ∧
    (∀ u limit skip, getFollowing s u limit skip = getFollowingUnfiltered s u limit skip) := by
  have hact := followReachable_all_active h
  refine ⟨hact, ?_, ?_, ?_⟩
  · intro a b
    exact any_congr_of_eq fun f hf => by simp [hact f hf]
  · intro u limit skip
    unfold getFollowers getFollowersUnfiltered
    have he : s.filter (fun f => f.following == u && f.isActive) =
        s.filter (fun f => f.following == u) :=
      filter_congr_of_eq fun f hf => by simp [hact f hf]
    rw [he]
  · intro u limit skip
    unfold getFollowing getFollowingUnfiltered
    have he : s.filter (fun f => f.follower == u && f.isActive) =
        s.filter (fun f => f.follower == u) :=
      filter_congr_of_eq fun f hf => by simp [hact f hf]
    rw [he]

/-- C10 witness: the invariant evaluated on the concrete reachable state
obtained by user `1` following user `2`. -/
theorem follow_isActive_invariant_witness :
    FollowReachable ((toggleFollow [] [] 1 2 5).2.1) ∧
    ((∀ f ∈ (toggleFollow [] [] 1 2 5).2.1, f.isActive = true) ∧
      (∀ a b, isFollowing ((toggleFollow [] [] 1 2 5).2.1) a b =
        isFollowingUnfiltered ((toggleFollow [] [] 1 2 5).2.1) a b) ∧
      (∀ u limit skip, getFollowers ((toggleFollow [] [] 1 2 5).2.1) u limit skip =
        getFollowersUnfiltered ((toggleFollow [] [] 1 2 5).2.1) u limit skip) ∧
      (∀ u limit skip, getFollowing ((toggleFollow [] [] 1 2 5).2.1) u limit skip =
        getFollowingUnfiltered ((toggleFollow [] [] 1 2 5).2.1) u limit skip)) :=
  ⟨FollowReachable.toggle [] 1 2 5 FollowReachable.init,
   follow_isActive_invariant _ (FollowReachable.toggle [] 1 2 5 FollowReachable.init)⟩

/-! ## Notification model (src/models/Notification.js)

Only the fields claims touch are modelled: `recipient`, `sender` and the
`type` discriminant.  Title, message, actionUrl and the `data` sub-object
are presentation fields derived from lookups and are not modelled. -/

inductive NotifType where
  | follow
  | likeTarget (tt : TargetType)
  | newChapter
deriving DecidableEq, Repr

structure NotificationRow where
  recipient : Id
  sender : Option Id
  ntype : NotifType
deriving DecidableEq, Repr

set_option linter.unusedVariables false in
/-- `Notification.createLikeNotification` (lines 115-160): skipped when the
liker is the owner, otherwise saves one notification to the owner with
type `like_<targetType>`. -/
def createLikeNotification (notifs : List NotificationRow)
    (userId targetId : Id) (tt : TargetType) (targetOwnerId : Id) : List NotificationRow :=
  if userId == targetOwnerId then notifs
  else notifs ++ [{ recipient := targetOwnerId, sender := some userId,
                    ntype := .likeTarget tt }]

/-! ## Like controller (src/controllers/likeController.js)

`Like.toggleLike` awaits `newLike.save()` with no try/catch of its own, so
a storage error raised by the save (such as the duplicate-key error of the
unique `(user, target)` index when a concurrent toggle won the race)
propagates out of `toggleLike`; the controller's surrounding try/catch
forwards it to `next(error)`, producing an error response.  The outcome of
the save step is therefore a parameter of the embedded operation. -/

/-- Outcome of the `newLike.save()` call in the create branch. -/
inductive SaveOutcome where
  | ok
  | dupKey
deriving DecidableEq, Repr

/-- `Like.toggleLike` with the save outcome made explicit.  The unlike
branch performs no save; in the like branch a duplicate-key failure of
`save` propagates as an error (there is no handler in the source). -/
def toggleLikeRacy (likes : List LikeRow) (userId targetId : Id) (tt : TargetType)
    (save : SaveOutcome) : Except String (List LikeRow × ToggleResult) :=
  match likes.find? (likeQueryMatch userId targetId tt) with
  | some _ =>
      .ok (removeFirst (likeQueryMatch userId targetId tt) likes,
        { liked := false, message := "Unliked successfully" })
  | none =>
      match save with
      | .ok => .ok (likes ++ [mkLike userId targetId tt],
          { liked := true, message := "Liked successfully" })
      | .dupKey => .error "E11000 duplicate key error"

/-- The HTTP-level outcome of the like controller. -/
inductive HttpOutcome where
  | success (liked : Bool)
  | errorResponse (msg : String)
deriving DecidableEq, Repr

/-- `toggleLike` in src/controllers/likeController.js (lines 10-73), after
target validation has succeeded (`targetOwnerId` is the owner of the
existing target): toggle the like, then — only when the result is a like
and the owner differs from the actor — create the like notification; any
error thrown by the toggle reaches the catch block and is forwarded to
`next(error)`. -/
def controllerToggleLike (likes : List LikeRow) (notifs : List NotificationRow)
    (userId targetId : Id) (tt : TargetType) (targetOwnerId : Id) (save : SaveOutcome) :
    HttpOutcome × List LikeRow × List NotificationRow :=
  match toggleLikeRacy likes userId targetId tt save with
  | .error e => (.errorResponse e, likes, notifs)
  | .ok (likes', result) =>
      let notifs' :=
        if result.liked && !(targetOwnerId == userId) then
          createLikeNotification notifs userId targetId tt targetOwnerId
        else notifs
      (.success result.liked, likes', notifs')

/-- C2 counterexample: user `0` likes story `1` (owned by user `2`) while
the save step fails with the duplicate-key error; the controller answers
with an error response, not with `success liked=true`. -/
theorem dupKey_surfaced_counterexample :
    (controllerToggleLike [] [] 0 1 TargetType.story 2 SaveOutcome.dupKey).1 =
      HttpOutcome.errorResponse "E11000 duplicate key error" ∧
    (controllerToggleLike [] [] 0 1 TargetType.story 2 SaveOutcome.dupKey).1 ≠
      HttpOutcome.success true := by
  constructor
  · rfl
  · decide

/-- C2 amended: when no like row exists and the create step fails with a
duplicate-key error, `toggleLike` propagates the error; the controller
surfaces it as an error response and writes neither a like row nor a
notification. -/
theorem dupKey_surfaced (likes : List LikeRow) (notifs : List NotificationRow)
    (u t : Id) (tt : TargetType) (owner : Id)
    (h : isLikedBy likes u t tt = false) :
    controllerToggleLike likes notifs u t tt owner SaveOutcome.dupKey =
      (HttpOutcome.errorResponse "E11000 duplicate key error", likes, notifs) := by
  have hnone : likes.find? (likeQueryMatch u t tt) = none :=
    find?_eq_none_of_any_false h
  simp [controllerToggleLike, toggleLikeRacy, hnone]

/-- C2 witness: the amended behaviour evaluated at user `0`, story `1`,
owner `2`, empty collections. -/
theorem dupKey_surfaced_witness :
    isLikedBy [] 0 1 TargetType.story = false ∧
    controllerToggleLike [] [] 0 1 TargetType.story 2 SaveOutcome.dupKey =
      (HttpOutcome.errorResponse "E11000 duplicate key error", [], []) :=
  ⟨rfl, dupKey_surfaced [] [] 0 1 TargetType.story 2 rfl⟩

/-- C9.  An unlike toggle never appends a notification; a like toggle by an
actor distinct from the owner appends exactly one notification addressed
to the owner; a like toggle by the owner appends none. -/
theorem likeNotification_rules (likes : List LikeRow) (notifs : List NotificationRow)
    (u t : Id) (tt : TargetType) (owner : Id) (save : SaveOutcome) :
    (isLikedBy likes u t tt = true →
      (controllerToggleLike likes notifs u t tt owner save).2.2 = notifs) ∧
    (isLikedBy likes u t tt = false → save = SaveOutcome.ok → owner ≠ u →
      (controllerToggleLike likes notifs u t tt owner save).2.2 =
        notifs ++ [{ recipient := owner, sender := some u, ntype := .likeTarget tt }]) ∧
    (isLikedBy likes u t tt = false → save = SaveOutcome.ok → owner = u →
      (controllerToggleLike likes notifs u t tt owner save).2.2 = notifs) := by
  refine ⟨?_, ?_, ?_⟩
  · intro h
    obtain ⟨x, hx⟩ := find?_eq_some_of_any_true h
    simp [controllerToggleLike, toggleLikeRacy, hx]
  · intro h hs hne
    subst hs
    have hnone : likes.find? (likeQueryMatch u t tt) = none :=
      find?_eq_none_of_any_false h
    have h1 : (owner == u) = false := by simp [hne]
    have h2 : (u == owner) = false := by simp [Ne.symm hne]
    simp [controllerToggleLike, toggleLikeRacy, hnone, createLikeNotification, h1, h2]
  · intro h hs heq
    subst hs
    have hnone : likes.find? (likeQueryMatch u t tt) = none :=
      find?_eq_none_of_any_false h
    simp [controllerToggleLike, toggleLikeRacy, hnone, createLikeNotification, heq]

/-- C9 witness: user `0` likes story `1` owned by user `2` starting from
empty collections; exactly one notification to user `2` is appended. -/
theorem likeNotification_rules_witness :
    isLikedBy [] 0 1 TargetType.story = false ∧
    (controllerToggleLike [] [] 0 1 TargetType.story 2 SaveOutcome.ok).2.2 =
      [{ recipient := 2, sender := some 0, ntype := .likeTarget TargetType.story }] :=
  ⟨rfl, (likeNotification_rules [] [] 0 1 TargetType.story 2 SaveOutcome.ok).2.1
    rfl rfl (by decide)⟩

/-! ## New-chapter fan-out (src/models/Notification.js, lines 199-227) -/

/-- A write against the notification collection: a single-document `save`
or one `insertMany` batch. -/
inductive NotifWrite where
  | insertOne (n : NotificationRow)
  | insertMany (ns : List NotificationRow)
deriving DecidableEq, Repr

set_option linter.unusedVariables false in
/-- The batch built by `Notification.createNewChapterNotification`: one
notification per row of `Follow.find({ following: authorId })` (the source
applies no `isActive` filter here), each addressed to the row's follower
with the author as sender. -/
def createNewChapterNotification (follows : List FollowRow)
    (authorId storyId chapterId : Id) : List NotificationRow :=
  (follows.filter fun f => f.following == authorId).map fun f =>
    { recipient := f.follower, sender := some authorId, ntype := .newChapter }

set_option linter.unusedVariables false in
/-- The write trace of `createNewChapterNotification`: the whole batch goes
through a single `insertMany`, never per-follower single writes. -/
def publishChapterFanout (follows : List FollowRow) (authorId storyId chapterId : Id) :
    List NotifWrite :=
  [.insertMany (createNewChapterNotification follows authorId storyId chapterId)]

/-- The active followers of a user: follow rows with `following = userId`
and `isActive = true`. -/
def activeFollowers (follows : List FollowRow) (userId : Id) : List FollowRow :=
  follows.filter fun f => f.following == userId && f.isActive

/-- C5.  On any follow collection satisfying the reachable-state invariants
(all rows active, no self-follows), publishing a chapter writes exactly one
`insertMany` batch holding one notification per active follower of the
author — in particular an empty batch for zero followers — and none of the
notifications is addressed to the author. -/
theorem publishChapter_fanout (follows : List FollowRow) (a s c : Id)
    (hact : ∀ f ∈ follows, f.isActive = true)
    (hself : ∀ f ∈ follows, f.follower ≠ f.following) :
    ∃ ns, publishChapterFanout follows a s c = [NotifWrite.insertMany ns] ∧
      ns.length = (activeFollowers follows a).length ∧
      ns.map (fun n => n.recipient) = (activeFollowers follows a).map (fun f => f.follower) ∧
      (∀ n ∈ ns, n.recipient ≠ a) ∧
      ((activeFollowers follows a).length = 0 → ns = []) := by
  have hfe : (follows.filter fun f => f.following == a) = activeFollowers follows a :=
    (filter_congr_of_eq fun f hf => by simp [hact f hf]).symm
  refine ⟨createNewChapterNotification follows a s c, rfl, ?_, ?_, ?_, ?_⟩
  · unfold createNewChapterNotification
    rw [hfe, List.length_map]
  · unfold createNewChapterNotification
    rw [hfe, List.map_map]
    rfl
  · intro n hn
    unfold createNewChapterNotification at hn
    obtain ⟨f, hf, hfn⟩ := List.mem_map.mp hn
    have hmem : f ∈ follows := List.mem_of_mem_filter hf
    have hfol : f.following = a := by
      have h2 := List.of_mem_filter hf
      simpa using h2
    intro hrec
    apply hself f hmem
    rw [← hfn] at hrec
    rw [hfol]
    exact hrec
  · intro hlen
    unfold createNewChapterNotification
    rw [hfe, List.length_eq_zero.mp hlen]
    rfl

/-- A concrete follow collection: users `1` and `2` follow author `9`,
user `3` follows user `4`. -/
def demoFollows : List FollowRow :=
  [⟨1, 9, true, 0⟩, ⟨2, 9, true, 1⟩, ⟨3, 4, true, 2⟩]

/-- C5 witness: publishing a chapter of author `9` over `demoFollows`
produces one batch of two notifications, to users `1` and `2` only. -/
theorem publishChapter_fanout_witness :
    (∀ f ∈ demoFollows, f.isActive = true) ∧
    (∀ f ∈ demoFollows, f.follower ≠ f.following) ∧
    (∃ ns, publishChapterFanout demoFollows 9 100 200 = [NotifWrite.insertMany ns] ∧
      ns.length = (activeFollowers demoFollows 9).length ∧
      ns.map (fun n => n.recipient) =
        (activeFollowers demoFollows 9).map (fun f => f.follower) ∧
      (∀ n ∈ ns, n.recipient ≠ 9) ∧
      ((activeFollowers demoFollows 9).length = 0 → ns = [])) :=
  ⟨by decide, by decide,
   publishChapter_fanout demoFollows 9 100 200 (by decide) (by decide)⟩

/-! ## Counter synchronizer hooks

The like/follow lifecycle hooks apply counter deltas through Mongo `$inc`,
which adds the raw signed delta; only the comment method `decrementLikes`
(src/controllers/authController.js, lines 506-509, Comment model) clamps
at zero with `Math.max`. -/

/-- Mongo `$inc`: add the raw signed delta, no clamping. -/
def mongoInc (current delta : Int) : Int := current + delta

/-- `likeSchema.post('remove')` for a story like (src/models/Like.js,
lines 68-79): `$inc: { totalLikes: -1 }`. -/
def likePostRemoveStory (totalLikes : Int) : Int := mongoInc totalLikes (-1)

/-- `likeSchema.post('remove')` for a chapter or comment like:
`$inc: { likes: -1 }`. -/
def likePostRemoveLikes (likes : Int) : Int := mongoInc likes (-1)

/-- `commentSchema.methods.decrementLikes`: `Math.max(0, this.likes - 1)`. -/
def decrementLikes (likes : Int) : Int := max 0 (likes - 1)

/-- C4 counterexample: removing a like from a story whose `totalLikes` is
already `0` drives the counter to `-1`, not to `max(0, 0 + (-1)) = 0`;
the follow remove hook behaves the same on `followingCount`. -/
theorem counter_clamp_counterexample :
    likePostRemoveStory 0 = -1 ∧
    likePostRemoveStory 0 ≠ max 0 (mongoInc 0 (-1)) ∧
    decFollowCounts [⟨7, 0, 0⟩] 7 8 = [⟨7, 0, -1⟩] := by
  refine ⟨rfl, by decide, by decide⟩

/-- C4 amended: the `$inc`-based hook decrements apply the raw delta
`current - 1` with no clamp (so they go negative at `0`), while the one
clamped site, `decrementLikes`, never returns a negative value and
subtracts one only above zero. -/
theorem counter_delta_behavior (c l : Int) :
    likePostRemoveStory c = c - 1 ∧
    likePostRemoveLikes c = c - 1 ∧
    0 ≤ decrementLikes l ∧
    (l ≤ 0 → decrementLikes l = 0) := by
  refine ⟨rfl, rfl, le_max_left 0 _, fun h => ?_⟩
  simp only [decrementLikes]
  omega

/-- C4 amended witness: the clamped decrement evaluated at `0` stays `0`. -/
theorem counter_delta_behavior_witness :
    (0 : Int) ≤ 0 ∧ decrementLikes 0 = 0 :=
  ⟨by decide, (counter_delta_behavior 0 0).2.2.2 (by decide)⟩

/-! ## Rating aggregator (Story.calculateAverageRating and the rating
post-save/post-remove hook) -/

/-- A `Rating` document (value 1..5, one per `(user, story)`). -/
structure RatingRow where
  user : Id
  story : Id
  value : ℚ
deriving DecidableEq

/-- JavaScript `Math.round`: round half toward positive infinity. -/
def jsMathRound (x : ℚ) : Int := ⌊x + 1/2⌋

/-- `storySchema.methods.calculateAverageRating` (src/models/Follow.js,
lines 379-393, Story model): read all rating rows of the story; with no
rows write `averageRating = 0`, `ratingCount = 0`, otherwise
`averageRating = Math.round((sum / n) * 10) / 10` and `ratingCount = n`.
Returns the pair `(averageRating, ratingCount)`. -/
def calculateAverageRating (ratings : List RatingRow) (storyId : Id) : ℚ × Nat :=
  let rs := ratings.filter fun r => r.story == storyId
  if rs.length = 0 then (0, 0)
  else
    let sum := rs.foldl (fun acc r => acc + r.value) 0
    ((jsMathRound ((sum / (rs.length : ℚ)) * 10) : ℚ) / 10, rs.length)

/-- The aggregate fields kept on the story document. -/
structure StoryAgg where
  averageRating : ℚ
  ratingCount : Nat
deriving DecidableEq

/-- `ratingSchema.post(['save', 'remove'])` (src/controllers/
authController.js, lines 587-593, Rating model): after any rating save or
remove, recompute the story's aggregate from all its rating rows. -/
def ratingHook (ratings : List RatingRow) (storyId : Id) : StoryAgg :=
  { averageRating := (calculateAverageRating ratings storyId).1,
    ratingCount := (calculateAverageRating ratings storyId).2 }

/-- The `(user, story)` key of the unique rating index. -/
def ratingKey (u sid : Id) (r : RatingRow) : Bool :=
  r.user == u && r.story == sid

/-- Saving a rating document: update the value of the existing
`(user, story)` row if one exists (the unique index allows at most one),
else insert a new row; the post-save hook then recomputes. -/
def saveRating (ratings : List RatingRow) (u sid : Id) (v : ℚ) : List RatingRow :=
  if ratings.any (ratingKey u sid) then
    ratings.map fun r => if ratingKey u sid r then { r with value := v } else r
  else ratings ++ [⟨u, sid, v⟩]

/-- Removing a rating document; the post-remove hook then recomputes. -/
def deleteRating (ratings : List RatingRow) (u sid : Id) : List RatingRow :=
  removeFirst (ratingKey u sid) ratings

/-- A rating create/update followed by the recompute hook. -/
def submitRating (ratings : List RatingRow) (u sid : Id) (v : ℚ) :
    List RatingRow × StoryAgg :=
  (saveRating ratings u sid v, ratingHook (saveRating ratings u sid v) sid)

/-- A rating delete followed by the recompute hook. -/
def removeRating (ratings : List RatingRow) (u sid : Id) :
    List RatingRow × StoryAgg :=
  (deleteRating ratings u sid, ratingHook (deleteRating ratings u sid) sid)

/-- After the three submissions `[5, 3, 4]` on story `7` by users `1`, `2`,
`3`. -/
def ratingsAfterThree : List RatingRow × StoryAgg :=
  submitRating (submitRating (submitRating [] 1 7 5).1 2 7 3).1 3 7 4

/-- After additionally removing user `2`'s rating of `3`. -/
def ratingsAfterRemove : List RatingRow × StoryAgg :=
  removeRating ratingsAfterThree.1 2 7

/-- C3.  Every rating create, update or delete recomputes from all rating
rows of the story: the stored count is the number of rows of the story and
an empty row set yields average `0`; concretely, ratings `[5, 3, 4]` yield
average `4` with count `3`, and removing the `3` yields average `9/2 = 4.5`
with count `2`. -/
theorem rating_recompute (ratings : List RatingRow) (u sid : Id) (v : ℚ) :
    ((submitRating ratings u sid v).2.ratingCount =
      ((submitRating ratings u sid v).1.filter fun r => r.story == sid).length) ∧
    ((removeRating ratings u sid).2.ratingCount =
      ((removeRating ratings u sid).1.filter fun r => r.story == sid).length) ∧
    (((removeRating ratings u sid).1.filter fun r => r.story == sid).length = 0 →
      (removeRating ratings u sid).2.averageRating = 0) ∧
    ratingsAfterThree.2 = { averageRating := 4, ratingCount := 3 } ∧
    ratingsAfterRemove.2 = { averageRating := 9 / 2, ratingCount := 2 } := by
  have hcount : ∀ (rows : List RatingRow),
      (ratingHook rows sid).ratingCount = (rows.filter fun r => r.story == sid).length := by
    intro rows
    unfold ratingHook calculateAverageRating
    by_cases h0 : (rows.filter fun r => r.story == sid).length = 0
    · simp [h0]
    · simp [h0]
  refine ⟨hcount _, hcount _, ?_, ?_, ?_⟩
  · intro h0
    simp only [removeRating] at h0
    simp only [removeRating, ratingHook, calculateAverageRating]
    rw [if_pos h0]
  · norm_num [ratingsAfterThree, submitRating, saveRating, ratingKey, ratingHook,
      calculateAverageRating, jsMathRound]
  · norm_num [ratingsAfterRemove, ratingsAfterThree, removeRating, deleteRating, removeFirst,
      submitRating, saveRating, ratingKey, ratingHook, calculateAverageRating, jsMathRound]

/-- C3 witness: removing the only rating of story `7` leaves zero rows and
resets the average to `0`. -/
theorem rating_recompute_witness :
    (((removeRating [⟨1, 7, 5⟩] 1 7).1.filter fun r => r.story == 7).length = 0 ∧
      (removeRating [⟨1, 7, 5⟩] 1 7).2.averageRating = 0) :=
  ⟨by decide, (rating_recompute [⟨1, 7, 5⟩] 1 7 5).2.2.1 (by decide)⟩

/-! ## Comment thread manager (Comment model, src/controllers/authController.js)

A `Comment` document; the `replies` ObjectId array and the spam/report
fields are not modelled (the thread listing reads replies through the
`nestedReplies` virtual, which queries `parentComment`). -/

structure CommentRow where
  id : Id
  content : String
  user : Id
  story : Id
  chapter : Option Id := none
  parentComment : Option Id := none
  isDeleted : Bool := false
  deletedAt : Option Nat := none
  createdAt : Nat := 0
deriving DecidableEq, Repr

/-- The fixed tombstone string written by `softDelete`. -/
def tombstone : String := "[This comment has been deleted]"

/-- `commentSchema.methods.softDelete` (lines 484-489): set `isDeleted`,
stamp `deletedAt`, overwrite the content with the tombstone.  Nothing else
is touched — in particular no reply row. -/
def softDeleteComment (c : CommentRow) (now : Nat) : CommentRow :=
  { c with isDeleted := true, deletedAt := some now, content := tombstone }

/-- Soft delete applied to the comment with the given id in a collection. -/
def softDeleteById (cs : List CommentRow) (cid : Id) (now : Nat) : List CommentRow :=
  cs.map fun c => if c.id == cid then softDeleteComment c now else c

/-- The top-level query of `getCommentsWithReplies` (lines 512-539):
`{ story, parentComment: null, isDeleted: false }` plus
`chapter = chapterId` when a chapter is given, else `chapter: null`. -/
def topLevelMatch (storyId : Id) (chapterId : Option Id) (c : CommentRow) : Bool :=
  c.story == storyId && c.parentComment == none && c.isDeleted == false &&
    (match chapterId with
     | some ch => c.chapter == some ch
     | none => c.chapter == none)

/-- The `nestedReplies` populate match: `parentComment = parentId` and
`isDeleted: false`. -/
def replyMatch (parentId : Id) (c : CommentRow) : Bool :=
  c.parentComment == some parentId && c.isDeleted == false

/-- Insert into a list sorted by `createdAt` ascending. -/
def insertAscComment (c : CommentRow) : List CommentRow → List CommentRow
  | [] => [c]
  | x :: xs => if c.createdAt < x.createdAt then c :: x :: xs else x :: insertAscComment c xs

/-- `.sort({ createdAt: 1 })` on a comment query result. -/
def sortAscComment : List CommentRow → List CommentRow
  | [] => []
  | x :: xs => insertAscComment x (sortAscComment xs)

/-- Insert into a list sorted by `createdAt` descending. -/
def insertDescComment (c : CommentRow) : List CommentRow → List CommentRow
  | [] => [c]
  | x :: xs => if x.createdAt < c.createdAt then c :: x :: xs else x :: insertDescComment c xs

/-- `.sort({ createdAt: -1 })` on a comment query result. -/
def sortDescComment : List CommentRow → List CommentRow
  | [] => []
  | x :: xs => insertDescComment x (sortDescComment xs)

/-- The populated `nestedReplies` of one top-level comment: non-deleted
replies, `sort({ createdAt: 1 })`, `limit: 5` — i.e. the five oldest. -/
def nestedRepliesOf (cs : List CommentRow) (parentId : Id) : List CommentRow :=
  (sortAscComment (cs.filter (replyMatch parentId))).take 5

/-- `commentSchema.statics.getCommentsWithReplies` (lines 512-539):
non-deleted top-level comments of the story (and chapter slot), newest
first, paginated (Mongo applies `skip` before `limit`), each paired with
its populated `nestedReplies`. -/
def getCommentsWithReplies (cs : List CommentRow) (storyId : Id) (chapterId : Option Id)
    (limit skip : Nat) : List (CommentRow × List CommentRow) :=
  (((sortDescComment (cs.filter (topLevelMatch storyId chapterId))).drop skip).take
    limit).map fun c => (c, nestedRepliesOf cs c.id)

/-! ### Membership and sortedness of the insertion sorts -/

theorem mem_insertAscComment {x c : CommentRow} {l : List CommentRow} :
    x ∈ insertAscComment c l ↔ x = c ∨ x ∈ l := by
  induction l with
  | nil => simp [insertAscComment]
  | cons y ys ih =>
      by_cases h : c.createdAt < y.createdAt
      · simp [insertAscComment, h, List.mem_cons]
      · simp only [insertAscComment, if_neg h, List.mem_cons, ih]
        tauto

theorem mem_sortAscComment {x : CommentRow} {l : List CommentRow} :
    x ∈ sortAscComment l ↔ x ∈ l := by
  induction l with
  | nil => simp [sortAscComment]
  | cons y ys ih =>
      simp only [sortAscComment, mem_insertAscComment, ih, List.mem_cons]

theorem mem_insertDescComment {x c : CommentRow} {l : List CommentRow} :
    x ∈ insertDescComment c l ↔ x = c ∨ x ∈ l := by
  induction l with
  | nil => simp [insertDescComment]
  | cons y ys ih =>
      by_cases h : y.createdAt < c.createdAt
      · simp [insertDescComment, h, List.mem_cons]
      · simp only [insertDescComment, if_neg h, List.mem_cons, ih]
        tauto

theorem mem_sortDescComment {x : CommentRow} {l : List CommentRow} :
    x ∈ sortDescComment l ↔ x ∈ l := by
  induction l with
  | nil => simp [sortDescComment]
  | cons y ys ih =>
      simp only [sortDescComment, mem_insertDescComment, ih, List.mem_cons]

theorem pairwise_insertAscComment {c : CommentRow} {l : List CommentRow}
    (h : List.Pairwise (fun a b => a.createdAt ≤ b.createdAt) l) :
    List.Pairwise (fun a b => a.createdAt ≤ b.createdAt) (insertAscComment c l) := by
  induction l with
  | nil => simp [insertAscComment]
  | cons y ys ih =>
      rcases List.pairwise_cons.mp h with ⟨hy, hys⟩
      by_cases hlt : c.createdAt < y.createdAt
      · simp only [insertAscComment, if_pos hlt]
        refine List.pairwise_cons.mpr ⟨?_, h⟩
        intro z hz
        rcases List.mem_cons.mp hz with hz | hz
        · rw [hz]; exact Nat.le_of_lt hlt
        · exact Nat.le_trans (Nat.le_of_lt hlt) (hy z hz)
      · simp only [insertAscComment, if_neg hlt]
        refine List.pairwise_cons.mpr ⟨?_, ih hys⟩
        intro z hz
        rcases mem_insertAscComment.mp hz with hz | hz
        · rw [hz]; exact Nat.le_of_not_lt hlt
        · exact hy z hz

theorem pairwise_sortAscComment (l : List CommentRow) :
    List.Pairwise (fun a b => a.createdAt ≤ b.createdAt) (sortAscComment l) := by
  induction l with
  | nil => simp [sortAscComment]
  | cons y ys ih => exact pairwise_insertAscComment ih

theorem pairwise_insertDescComment {c : CommentRow} {l : List CommentRow}
    (h : List.Pairwise (fun a b => b.createdAt ≤ a.createdAt) l) :
    List.Pairwise (fun a b => b.createdAt ≤ a.createdAt) (insertDescComment c l) := by
  induction l with
  | nil => simp [insertDescComment]
  | cons y ys ih =>
      rcases List.pairwise_cons.mp h with ⟨hy, hys⟩
      by_cases hlt : y.createdAt < c.createdAt
      · simp only [insertDescComment, if_pos hlt]
        refine List.pairwise_cons.mpr ⟨?_, h⟩
        intro z hz
        rcases List.mem_cons.mp hz with hz | hz
        · rw [hz]; exact Nat.le_of_lt hlt
        · exact Nat.le_trans (hy z hz) (Nat.le_of_lt hlt)
      · simp only [insertDescComment, if_neg hlt]
        refine List.pairwise_cons.mpr ⟨?_, ih hys⟩
        intro z hz
        rcases mem_insertDescComment.mp hz with hz | hz
        · rw [hz]; exact Nat.le_of_not_lt hlt
        · exact hy z hz

theorem pairwise_sortDescComment (l : List CommentRow) :
    List.Pairwise (fun a b => b.createdAt ≤ a.createdAt) (sortDescComment l) := by
  induction l with
  | nil => simp [sortDescComment]
  | cons y ys ih => exact pairwise_insertDescComment ih

/-- Every pair returned by `getCommentsWithReplies` comes from a top-level
row that matched the (non-deleted) query, paired with its populated
replies. -/
theorem mem_getCommentsWithReplies {cs : List CommentRow} {sid : Id} {ch : Option Id}
    {limit skip : Nat} {p : CommentRow × List CommentRow}
    (hp : p ∈ getCommentsWithReplies cs sid ch limit skip) :
    topLevelMatch sid ch p.1 = true ∧ p.2 = nestedRepliesOf cs p.1.id := by
  unfold getCommentsWithReplies at hp
  obtain ⟨c, hc, hcp⟩ := List.mem_map.mp hp
  have h1 : c ∈ (sortDescComment (cs.filter (topLevelMatch sid ch))).drop skip :=
    List.mem_of_mem_take hc
  have h2 : c ∈ sortDescComment (cs.filter (topLevelMatch sid ch)) :=
    List.mem_of_mem_drop h1
  have h3 : c ∈ cs.filter (topLevelMatch sid ch) := mem_sortDescComment.mp h2
  have h4 := List.of_mem_filter h3
  rw [← hcp]
  exact ⟨h4, rfl⟩

/-- A story-level comment with one reply: comment `10` by user `2` on
story `1`, reply `11` by user `3`. -/
def c6parent : CommentRow :=
  { id := 10, content := "great chapter", user := 2, story := 1, createdAt := 1 }

def c6reply : CommentRow :=
  { id := 11, content := "agreed", user := 3, story := 1, parentComment := some 10,
    createdAt := 2 }

def c6comments : List CommentRow := [c6parent, c6reply]

/-- C6 counterexample: before the soft delete, `ListThread` returns the
parent with its reply; after soft-deleting the parent its reply row is
still present and non-deleted, yet `ListThread` returns nothing — the
deleted parent (tombstone and all) and its replies are no longer listed,
because the top-level query filters `isDeleted: false`. -/
theorem softDelete_listThread_counterexample :
    getCommentsWithReplies c6comments 1 none 20 0 = [(c6parent, [c6reply])] ∧
    (softDeleteById c6comments 10 5).filter (replyMatch 10) = [c6reply] ∧
    getCommentsWithReplies (softDeleteById c6comments 10 5) 1 none 20 0 = [] := by
  refine ⟨by decide, by decide, by decide⟩

/-- C6 amended.  Soft delete keeps every row (no cascade): rows other than
the target — in particular all replies — are unchanged, the target gets
`isDeleted = true`, the tombstone content and a `deletedAt` stamp; but
every top-level comment `ListThread` returns is non-deleted, so the
deleted parent (and with it its reply thread) is absent from the listing. -/
theorem softDelete_preserves_replies (cs : List CommentRow) (cid : Id) (now : Nat) :
    (softDeleteById cs cid now).length = cs.length ∧
    (∀ c ∈ cs, (c.id == cid) = false → c ∈ softDeleteById cs cid now) ∧
    (∀ c ∈ cs, c.id = cid →
      softDeleteComment c now ∈ softDeleteById cs cid now ∧
      (softDeleteComment c now).isDeleted = true ∧
      (softDeleteComment c now).content = tombstone ∧
      (softDeleteComment c now).deletedAt = some now) ∧
    (∀ sid ch limit skip p,
      p ∈ getCommentsWithReplies (softDeleteById cs cid now) sid ch limit skip →
      p.1.isDeleted = false) := by
  refine ⟨by simp [softDeleteById], ?_, ?_, ?_⟩
  · intro c hc hne
    have he : (fun c => if c.id == cid then softDeleteComment c now else c) c = c := by
      simp [hne]
    exact he ▸ List.mem_map_of_mem _ hc
  · intro c hc heq
    refine ⟨?_, rfl, rfl, rfl⟩
    have he : (fun c => if c.id == cid then softDeleteComment c now else c) c =
        softDeleteComment c now := by simp [heq]
    exact he ▸ List.mem_map_of_mem _ hc
  · intro sid ch limit skip p hp
    have h := (mem_getCommentsWithReplies hp).1
    simp only [topLevelMatch, Bool.and_eq_true, beq_iff_eq] at h
    exact h.1.2

/-- C6 amended witness: the reply row survives the parent's soft delete
unchanged. -/
theorem softDelete_preserves_replies_witness :
    c6reply ∈ c6comments ∧ ((c6reply.id == 10) = false) ∧
    c6reply ∈ softDeleteById c6comments 10 5 :=
  ⟨by decide, by decide,
   (softDelete_preserves_replies c6comments 10 5).2.1 c6reply (by decide) (by decide)⟩

/-- A top-level comment `20` on story `1` with six replies created at
times `1..6`. -/
def c7parent : CommentRow :=
  { id := 20, content := "first", user := 2, story := 1, createdAt := 0 }

def c7reply (i : Nat) : CommentRow :=
  { id := 20 + i, content := "reply", user := 3, story := 1, parentComment := some 20,
    createdAt := i }

def c7comments : List CommentRow :=
  [c7parent, c7reply 1, c7reply 2, c7reply 3, c7reply 4, c7reply 5, c7reply 6]

/-- C7 counterexample: with six replies created at `1..6`, the listing
carries the replies created at `[1, 2, 3, 4, 5]` — the five oldest — while
the five most-recent would be those created at `[2, 3, 4, 5, 6]`. -/
theorem reply_window_counterexample :
    (getCommentsWithReplies c7comments 1 none 20 0).map
      (fun p => (p.1.id, p.2.map fun r => r.createdAt)) = [(20, [1, 2, 3, 4, 5])] ∧
    [1, 2, 3, 4, 5] ≠ [2, 3, 4, 5, 6] := by
  refine ⟨by decide, by decide⟩

/-- C7 amended.  Top-level comments are ordered newest-first; each carries
at most 5 replies, all non-deleted children of that comment, in
oldest-first order, and they are the oldest ones: every carried reply is
no newer than every non-deleted reply of the comment left out of the
window. -/
theorem listThread_reply_window (cs : List CommentRow) (sid : Id) (ch : Option Id)
    (limit skip : Nat) :
    List.Pairwise (fun p q => q.1.createdAt ≤ p.1.createdAt)
      (getCommentsWithReplies cs sid ch limit skip) ∧
    ∀ p ∈ getCommentsWithReplies cs sid ch limit skip,
      p.2.length ≤ 5 ∧
      List.Pairwise (fun a b => a.createdAt ≤ b.createdAt) p.2 ∧
      (∀ r ∈ p.2, r.isDeleted = false ∧ r.parentComment = some p.1.id) ∧
      (∀ r ∈ p.2, ∀ q ∈ cs.filter (replyMatch p.1.id), q ∉ p.2 →
        r.createdAt ≤ q.createdAt) := by
  constructor
  · unfold getCommentsWithReplies
    have h1 := pairwise_sortDescComment (cs.filter (topLevelMatch sid ch))
    have hsub : List.Sublist
        (((sortDescComment (cs.filter (topLevelMatch sid ch))).drop skip).take limit)
        (sortDescComment (cs.filter (topLevelMatch sid ch))) :=
      (List.take_sublist _ _).trans (List.drop_sublist _ _)
    exact List.pairwise_map.mpr (h1.sublist hsub)
  · intro p hp
    obtain ⟨htop, hrepl⟩ := mem_getCommentsWithReplies hp
    refine ⟨?_, ?_, ?_, ?_⟩
    · rw [hrepl]
      exact List.length_take_le 5 _
    · rw [hrepl]
      unfold nestedRepliesOf
      exact (pairwise_sortAscComment _).sublist (List.take_sublist _ _)
    · intro r hr
      rw [hrepl] at hr
      have h1 : r ∈ sortAscComment (cs.filter (replyMatch p.1.id)) :=
        List.mem_of_mem_take hr
      have h2 : r ∈ cs.filter (replyMatch p.1.id) := mem_sortAscComment.mp h1
      have h3 := List.of_mem_filter h2
      simp only [replyMatch, Bool.and_eq_true, beq_iff_eq] at h3
      exact ⟨h3.2, h3.1⟩
    · intro r hr q hq hqn
      rw [hrepl] at hr hqn
      unfold nestedRepliesOf at hr hqn
      have hsorted := pairwise_sortAscComment (cs.filter (replyMatch p.1.id))
      have happ : List.Pairwise (fun a b => a.createdAt ≤ b.createdAt)
          ((sortAscComment (cs.filter (replyMatch p.1.id))).take 5 ++
            (sortAscComment (cs.filter (replyMatch p.1.id))).drop 5) := by
        rw [List.take_append_drop]
        exact hsorted
      have h3 := (List.pairwise_append.mp happ).2.2
      have hqs : q ∈ sortAscComment (cs.filter (replyMatch p.1.id)) :=
        mem_sortAscComment.mpr hq
      have hqd : q ∈ (sortAscComment (cs.filter (replyMatch p.1.id))).drop 5 := by
        have hq2 : q ∈ (sortAscComment (cs.filter (replyMatch p.1.id))).take 5 ++
            (sortAscComment (cs.filter (replyMatch p.1.id))).drop 5 := by
          rw [List.take_append_drop]
          exact hqs
        rcases List.mem_append.mp hq2 with h | h
        · exact absurd h hqn
        · exact h
      exact h3 r hr q hqd

/-- The pair `ListThread` returns for `c7comments`. -/
def c7pair : CommentRow × List CommentRow :=
  (c7parent, [c7reply 1, c7reply 2, c7reply 3, c7reply 4, c7reply 5])

/-- C7 amended witness: over `c7comments`, the carried reply created at `1`
is no newer than the excluded reply created at `6`. -/
theorem listThread_reply_window_witness :
    c7pair ∈ getCommentsWithReplies c7comments 1 none 20 0 ∧
    c7reply 1 ∈ c7pair.2 ∧
    c7reply 6 ∈ c7comments.filter (replyMatch c7pair.1.id) ∧
    c7reply 6 ∉ c7pair.2 ∧
    (c7reply 1).createdAt ≤ (c7reply 6).createdAt :=
  ⟨by decide, by decide, by decide, by decide,
   ((listThread_reply_window c7comments 1 none 20 0).2 c7pair (by decide)).2.2.2
     (c7reply 1) (by decide) (c7reply 6) (by decide) (by decide)⟩

end ChatPad
